import Mathlib

/-!
# Package `lights` of go-conbee: a shallow embedding

The Go package talks to a bridge over HTTP.  Everything that happens between the
network and the data (request building, transport, byte-level JSON) is outside this
development; what is embedded is the data model (`Light`, `State`), the setters, the
part of `GetAllLights` that runs on the decoded map, the JSON object that
`SetLightState` builds from a `State`, and the two `String` renderings.

Conventions.
* A Go pointer field `*T` is an `Option T` (`none` is the nil pointer).
* `uint8` and `uint16` values are natural numbers; a conversion `uint8(x)` from `int`
  is `x % 2^8` and is written out where it happens.
* A `float32` is its IEEE-754 binary32 bit pattern.
* A `string` is a `String`, that is, text in valid UTF-8; `len(s) > 0` is `s.length > 0`.
  A Go string may hold any bytes; one that is not valid UTF-8 is outside this model
  (`json.Marshal` writes U+FFFD for each invalid byte, so that such a string does not come
  back from an encoding as it was), and what is proved about the string fields is proved
  for valid UTF-8 only.
* A slice is the list of its elements; the nil slice and an empty slice are both `[]`
  (they have the same `len`, the same encoding under `omitempty` and the same rendering).
* `int` is 64 bits wide (`strconv.IntSize = 64`).
* A Go `map[string]Light` is the list of its entries in the order in which one
  `range` loop visits them; the keys of a map are pairwise distinct and the Go runtime may
  pick any order.
* A run-time panic is the result `none`.
-/

namespace lights

/-! ## Data model -/

/-- Go `float32`, given by its IEEE-754 binary32 bit pattern
(bit 31 sign, bits 30..23 exponent, bits 22..0 fraction). -/
structure Float32 where
  bits : Nat
deriving DecidableEq, Repr

/-- The biased exponent field of a `float32`. -/
def Float32.exponent (f : Float32) : Nat := (f.bits / 2 ^ 23) % 2 ^ 8

/-- Neither NaN nor an infinity: the exponent field is not all ones
(`!math.IsInf(f, 0) && !math.IsNaN(f)`). -/
def Float32.isFinite (f : Float32) : Bool := f.exponent != 255

/-- The struct `State` (lights.go, lines 44-57). -/
structure State where
  On : Option Bool := none
  Hue : Option Nat := none
  Effect : String := ""
  Bri : Option Nat := none
  Sat : Option Nat := none
  CT : Option Nat := none
  XY : List Float32 := []
  Alert : String := ""
  Reachable : Option Bool := none
  ColorMode : String := ""
  ColorLoopSpeed : Option Nat := none
  TransitionTime : Option Nat := none
deriving DecidableEq, Repr

/-- The numeric fields hold values of their Go types:
`Hue`, `CT`, `TransitionTime` are `uint16`, `Bri`, `Sat`, `ColorLoopSpeed` are `uint8`. -/
def State.WF (s : State) : Prop :=
  (∀ n ∈ s.Hue, n < 2 ^ 16) ∧ (∀ n ∈ s.Bri, n < 2 ^ 8) ∧ (∀ n ∈ s.Sat, n < 2 ^ 8) ∧
  (∀ n ∈ s.CT, n < 2 ^ 16) ∧ (∀ n ∈ s.ColorLoopSpeed, n < 2 ^ 8) ∧
  (∀ n ∈ s.TransitionTime, n < 2 ^ 16)

instance (s : State) : Decidable s.WF := by
  unfold State.WF
  infer_instance

/-- The struct `Light` (lights.go, lines 31-42).  The Go field `Type` is `Typ` here. -/
structure Light where
  Name : String := ""
  ID : Int := 0
  ETag : String := ""
  State : State := {}
  HasColor : Bool := false
  Typ : String := ""
  Manufacturer : String := ""
  ModelID : String := ""
  UniqueID : String := ""
  SWVersion : String := ""
deriving DecidableEq, Repr

/-! ## Setters (lights.go, lines 118-134) -/

/-- `func (s *State) SetOn(OnOff bool)`. -/
def State.SetOn (s : State) (OnOff : Bool) : State :=
  { s with On := some OnOff }

/-- `func (s *State) SetCT(Bri int, CT int)`: the arguments are converted with
`uint8(Bri)` and `uint16(CT)`, which keep the low 8 and 16 bits. -/
def State.SetCT (s : State) (Bri : Int) (CT : Int) : State :=
  { s with Bri := some (Bri % 2 ^ 8).toNat, CT := some (CT % 2 ^ 16).toNat }

/-- `func (s *State) SetXY(x, y float32)`: a fresh slice of length 2. -/
def State.SetXY (s : State) (x y : Float32) : State :=
  { s with XY := ((List.replicate 2 (Float32.mk 0)).set 0 x).set 1 y }

/-! ## `strconv.Atoi` (Go standard library, 64-bit `int`)

Go strings are byte strings.  A character outside ASCII is encoded by bytes that are
all at least `0x80`, none of which is a sign or a digit, so scanning the characters
takes the same branches as scanning the bytes. -/

/-- The two causes of a `*strconv.NumError`. -/
inductive NumError where
  | ErrSyntax
  | ErrRange
deriving DecidableEq, Repr

/-- The value of the digit byte `c`, `c - '0'`. -/
def digitOf (c : Char) : Nat := c.toNat - 48

/-- The loop of the fast path of `Atoi`: `n = n*10 + int(ch)` over the bytes, leaving
with a syntax error (`none`) at the first byte that is not a digit.  The fast path runs
on fewer than 19 bytes, so `n` stays below `10^18` and the `int` never overflows. -/
def atoiFastLoop : List Char → Nat → Option Nat
  | [], n => some n
  | ch :: rest, n => if ch.isDigit then atoiFastLoop rest (n * 10 + digitOf ch) else none

/-- The loop of `strconv.ParseUint(s, 10, 64)`: `cutoff = maxUint64/10 + 1`,
`maxVal = 1<<64 - 1`, and `n1 := n + d` wraps around in `uint64`. -/
def parseUintLoop : List Char → Nat → Nat × Option NumError
  | [], n => (n, none)
  | c :: rest, n =>
    if !c.isDigit then (0, some NumError.ErrSyntax)
    else if n ≥ (2 ^ 64 - 1) / 10 + 1 then (2 ^ 64 - 1, some NumError.ErrRange)
    else
      let n10 := n * 10
      let n1 := (n10 + digitOf c) % 2 ^ 64
      if n1 < n10 ∨ n1 > 2 ^ 64 - 1 then (2 ^ 64 - 1, some NumError.ErrRange)
      else parseUintLoop rest n1

/-- `strconv.ParseUint(s, 10, 64)`. -/
def ParseUint (s : List Char) : Nat × Option NumError :=
  if s = [] then (0, some NumError.ErrSyntax) else parseUintLoop s 0

/-- `strconv.ParseInt(s, 10, 0)` with `IntSize = 64`. -/
def ParseInt (s : List Char) : Int × Option NumError :=
  match s with
  | [] => (0, some NumError.ErrSyntax)
  | c0 :: rest =>
    let neg := c0 == '-'
    let s1 := if c0 == '+' ∨ c0 == '-' then rest else s
    let (un, err) := ParseUint s1
    if err = some NumError.ErrSyntax then (0, err)
    else if !neg ∧ un ≥ 2 ^ 63 then (2 ^ 63 - 1, some NumError.ErrRange)
    else if neg ∧ un > 2 ^ 63 then (-(2 ^ 63), some NumError.ErrRange)
    else if neg then (-(un : Int), none) else ((un : Int), none)

/-- `strconv.Atoi`: the value and the error it returns. -/
def Atoi (s : String) : Int × Option NumError :=
  let sLen := s.utf8ByteSize
  if 0 < sLen ∧ sLen < 19 then
    match s.toList with
    | [] => (0, some NumError.ErrSyntax)
    | c0 :: rest =>
      let s1 := if c0 == '-' ∨ c0 == '+' then rest else c0 :: rest
      if (c0 == '-' ∨ c0 == '+') ∧ s1.length < 1 then (0, some NumError.ErrSyntax)
      else
        match atoiFastLoop s1 0 with
        | none => (0, some NumError.ErrSyntax)
        | some n => if c0 == '-' then (-(n : Int), none) else ((n : Int), none)
  else ParseInt s.toList

/-! ## `sort.Slice` (Go standard library)

On a slice of at most 12 elements `sort.Slice` runs the insertion sort below, in every
Go release.  On a longer slice it runs a quicksort variant that is not stable; what it
guarantees there, and what the insertion sort also gives, is a sorted permutation. -/

/-- The inner loop `for j := i; j > a && less(j, j-1); j-- { swap(j, j-1) }`:
`x` is the element at `i` and the second argument lists the elements to its left, the
nearest first.  The result lists positions `i, i-1, ..., a` after the loop. -/
def insertLeft {α : Type} (less : α → α → Bool) (x : α) : List α → List α
  | [] => [x]
  | y :: rest => if less x y then y :: insertLeft less x rest else x :: y :: rest

/-- The function `insertionSortLessFunc` on a whole slice: the outer loop carries the
sorted prefix (kept in reverse) and moves the next element into it. -/
def insertionSort {α : Type} (less : α → α → Bool) (data : List α) : List α :=
  (data.foldl (fun sortedRev x => insertLeft less x sortedRev) []).reverse

/-- `sort.Slice(data, less)`, where `less` is given on elements instead of on indices. -/
def sortSlice {α : Type} (less : α → α → Bool) (data : List α) : List α :=
  insertionSort less data

/-! ## `GetAllLights` on the decoded map (lights.go, lines 187-194) -/

/-- The loop body: `light.ID, _ = strconv.Atoi(lightID); lights = append(lights, light)`. -/
def appendLight (lights : List Light) (entry : String × Light) : List Light :=
  lights ++ [{ entry.2 with ID := (Atoi entry.1).1 }]

/-- The statements of `GetAllLights` after the response has been decoded into
`lightsMap`: the `range` loop over the map, then `sort.Slice` with
`lights[i].ID < lights[j].ID`.  The returned error is nil on this path. -/
def GetAllLights (lightsMap : List (String × Light)) : List Light :=
  let lights := lightsMap.foldl appendLight []
  sortSlice (fun a b => decide (a.ID < b.ID)) lights

/-- The number written by a non-empty string of decimal digits. -/
def specDigitsValue (cs : List Char) : Option Nat :=
  if cs ≠ [] ∧ cs.all Char.isDigit then some (cs.foldl (fun n c => n * 10 + digitOf c) 0)
  else none

/-- The integer that a key string writes in decimal: an optional sign followed by one or
more digits.  This follows the wording of the specification ("the integer value of its
key"); it is what the identifier computed by `Atoi` is compared with. -/
def specKeyValue (key : String) : Option Int :=
  match key.toList with
  | [] => none
  | c :: cs =>
    if c = '-' then (specDigitsValue cs).map (fun n : Nat => -(n : Int))
    else if c = '+' then (specDigitsValue cs).map (fun n : Nat => (n : Int))
    else (specDigitsValue (c :: cs)).map (fun n : Nat => (n : Int))

/-! ## `json.Marshal` and `json.Unmarshal` at the type `State`

The JSON text is represented by the sequence of the members of the object, each a key
with a value.  The numbers of the `xy` array are represented by the `float32` they
denote: the encoder prints the shortest decimal that reads back as the same `float32`. -/

/-- The values of the members of an encoded `State`, and `null`. -/
inductive Value where
  | null
  | bool (b : Bool)
  | number (n : Int)
  | string (s : String)
  | floats (xs : List Float32)
deriving DecidableEq, Repr

/-- The errors of the package `encoding/json` that can occur at the type `State`. -/
inductive JSONError where
  | UnsupportedValue
  | UnmarshalType
deriving DecidableEq, Repr

/-- A field tagged `omitempty`: no member when the field is empty (`none`). -/
def omitempty (key : String) (v : Option Value) : List (String × Value) :=
  match v with
  | none => []
  | some v => [(key, v)]

/-- The members that the struct tags of `State` give, in the order of the fields.  With
`omitempty` a nil pointer, a string of length 0 and a slice of length 0 are left out. -/
def State.members (s : State) : List (String × Value) :=
  omitempty "on" (s.On.map Value.bool) ++
  omitempty "hue" (s.Hue.map (fun n : Nat => Value.number (n : Int))) ++
  omitempty "effect" (if s.Effect.length = 0 then none else some (Value.string s.Effect)) ++
  omitempty "bri" (s.Bri.map (fun n : Nat => Value.number (n : Int))) ++
  omitempty "sat" (s.Sat.map (fun n : Nat => Value.number (n : Int))) ++
  omitempty "ct" (s.CT.map (fun n : Nat => Value.number (n : Int))) ++
  omitempty "xy" (if s.XY.length = 0 then none else some (Value.floats s.XY)) ++
  omitempty "alert" (if s.Alert.length = 0 then none else some (Value.string s.Alert)) ++
  omitempty "reachable" (s.Reachable.map Value.bool) ++
  omitempty "colormode" (if s.ColorMode.length = 0 then none else some (Value.string s.ColorMode)) ++
  omitempty "colorloopspeed" (s.ColorLoopSpeed.map (fun n : Nat => Value.number (n : Int))) ++
  omitempty "transitiontime" (s.TransitionTime.map (fun n : Nat => Value.number (n : Int)))

/-- `json.Marshal` of a `State`: a NaN or an infinity among the encoded numbers makes it
return an `UnsupportedValueError`. -/
def Marshal (s : State) : Except JSONError (List (String × Value)) :=
  if s.XY.all Float32.isFinite then Except.ok s.members
  else Except.error JSONError.UnsupportedValue

/-- `SetLightState` up to the request (lights.go, lines 138-142): the body that is PUT to
the bridge, or the error that is returned before any request is made. -/
def SetLightState_postbody (state : State) : Except JSONError (List (String × Value)) :=
  match Marshal state with
  | Except.error err => Except.error err
  | Except.ok stateJSON => Except.ok stateJSON

/-- Decoding into a `*bool` field: `null` gives nil. -/
def decodeBool (v : Value) : Except JSONError (Option Bool) :=
  match v with
  | Value.null => Except.ok none
  | Value.bool b => Except.ok (some b)
  | _ => Except.error JSONError.UnmarshalType

/-- Decoding into a `*uint8` (`w = 8`) or `*uint16` (`w = 16`) field: a number outside
the type is a type error. -/
def decodeUint (w : Nat) (v : Value) : Except JSONError (Option Nat) :=
  match v with
  | Value.null => Except.ok none
  | Value.number n =>
    if 0 ≤ n ∧ n < 2 ^ w then Except.ok (some n.toNat) else Except.error JSONError.UnmarshalType
  | _ => Except.error JSONError.UnmarshalType

/-- Decoding into a `string` field: `null` leaves the field as it is. -/
def decodeString (old : String) (v : Value) : Except JSONError String :=
  match v with
  | Value.null => Except.ok old
  | Value.string s => Except.ok s
  | _ => Except.error JSONError.UnmarshalType

/-- Decoding into the `[]float32` field: `null` gives the nil slice. -/
def decodeFloats (v : Value) : Except JSONError (List Float32) :=
  match v with
  | Value.null => Except.ok []
  | Value.floats xs => Except.ok xs
  | _ => Except.error JSONError.UnmarshalType

/-- Decoding one member into a `State`.  A key that names no field is skipped.  (Keys are
compared exactly; Go also accepts a key that differs in letter case only, which the
encoder never writes.) -/
def decodeMember (s : State) (m : String × Value) : Except JSONError State :=
  if m.1 = "on" then (decodeBool m.2).map (fun v => { s with On := v })
  else if m.1 = "hue" then (decodeUint 16 m.2).map (fun v => { s with Hue := v })
  else if m.1 = "effect" then (decodeString s.Effect m.2).map (fun v => { s with Effect := v })
  else if m.1 = "bri" then (decodeUint 8 m.2).map (fun v => { s with Bri := v })
  else if m.1 = "sat" then (decodeUint 8 m.2).map (fun v => { s with Sat := v })
  else if m.1 = "ct" then (decodeUint 16 m.2).map (fun v => { s with CT := v })
  else if m.1 = "xy" then (decodeFloats m.2).map (fun v => { s with XY := v })
  else if m.1 = "alert" then (decodeString s.Alert m.2).map (fun v => { s with Alert := v })
  else if m.1 = "reachable" then (decodeBool m.2).map (fun v => { s with Reachable := v })
  else if m.1 = "colormode" then
    (decodeString s.ColorMode m.2).map (fun v => { s with ColorMode := v })
  else if m.1 = "colorloopspeed" then
    (decodeUint 8 m.2).map (fun v => { s with ColorLoopSpeed := v })
  else if m.1 = "transitiontime" then
    (decodeUint 16 m.2).map (fun v => { s with TransitionTime := v })
  else Except.ok s

/-- `json.Unmarshal` of an object into a zero `State`: the members are decoded one after
the other, a later member with the same key overwriting an earlier one. -/
def Unmarshal (members : List (String × Value)) : Except JSONError State :=
  members.foldlM decodeMember {}

/-! ## The renderings (lights.go, lines 197-249)

The verb `%g` of a `float32` is a parameter `fmtG`; `%d`, `%t` and `%s` are the decimal
numeral, `true`/`false` and the string itself. -/

/-- `func (s *State) String() string`.  Indexing `s.XY[1]` in a slice of length 1 panics. -/
def State.String (fmtG : Float32 → String) (s : State) : Option String := do
  let buffer := ""
  let buffer := match s.On with
    | some v => buffer ++ ("On:              " ++ toString v ++ "\n")
    | none => buffer
  let buffer := match s.Hue with
    | some v => buffer ++ ("Hue:             " ++ toString v ++ "\n")
    | none => buffer
  let buffer := if s.Effect.length > 0 then
      buffer ++ ("Effect:          " ++ s.Effect ++ "\n") else buffer
  let buffer := match s.Bri with
    | some v => buffer ++ ("Bri:             " ++ toString v ++ "\n")
    | none => buffer
  let buffer := match s.Sat with
    | some v => buffer ++ ("Sat:             " ++ toString v ++ "\n")
    | none => buffer
  let buffer := match s.CT with
    | some v => if v > 0 then buffer ++ ("CT:              " ++ toString v ++ "\n") else buffer
    | none => buffer
  let buffer ← if s.XY.length > 0 then do
      let x ← s.XY[0]?
      let y ← s.XY[1]?
      pure (buffer ++ ("XY:              " ++ fmtG x ++ ", " ++ fmtG y ++ "\n"))
    else pure buffer
  let buffer := if s.Alert.length > 0 then
      buffer ++ ("Alert:           " ++ s.Alert ++ "\n") else buffer
  let buffer := match s.TransitionTime with
    | some v => if v > 0 then buffer ++ ("TransitionTime:  " ++ toString v ++ "\n") else buffer
    | none => buffer
  let buffer := match s.Reachable with
    | some v => buffer ++ ("Reachable:       " ++ toString v ++ "\n")
    | none => buffer
  let buffer := if s.ColorMode.length > 0 then
      buffer ++ ("ColorMode:       " ++ s.ColorMode ++ "\n") else buffer
  let buffer := match s.ColorLoopSpeed with
    | some v => if v > 0 then buffer ++ ("ColorLoopSpeed:  " ++ toString v ++ "\n") else buffer
    | none => buffer
  pure buffer

/-- `func (l *Light) String() string`. -/
def Light.String (fmtG : Float32 → String) (l : Light) : Option String := do
  let buffer := ""
  let buffer := buffer ++ ("ID:              " ++ toString l.ID ++ "\n")
  let buffer := buffer ++ ("UUID:            " ++ l.UniqueID ++ "\n")
  let buffer := buffer ++ ("Name:            " ++ l.Name ++ "\n")
  let buffer := buffer ++ ("Type:            " ++ l.Typ ++ "\n")
  let buffer := buffer ++ ("ModelId:         " ++ l.ModelID ++ "\n")
  let buffer := buffer ++ ("SwVersion:       " ++ l.SWVersion ++ "\n")
  let buffer := buffer ++ "State:\n"
  let state ← l.State.String fmtG
  pure (buffer ++ state)

/-! ## `Atoi` on decimal numerals -/

theorem le_foldl_digits (cs : List Char) (n : Nat) :
    n ≤ cs.foldl (fun n c => n * 10 + digitOf c) n := by
  induction cs generalizing n with
  | nil => exact Nat.le_refl _
  | cons c rest ih =>
    have := ih (n * 10 + digitOf c)
    simp only [List.foldl_cons]
    omega

theorem atoiFastLoop_digits (cs : List Char) (n : Nat) (h : cs.all Char.isDigit = true) :
    atoiFastLoop cs n = some (cs.foldl (fun n c => n * 10 + digitOf c) n) := by
  induction cs generalizing n with
  | nil => rfl
  | cons c rest ih =>
    simp only [List.all_cons, Bool.and_eq_true] at h
    simp [atoiFastLoop, h.1, ih _ h.2]

theorem parseUintLoop_digits (cs : List Char) (n : Nat) (h : cs.all Char.isDigit = true)
    (hmax : cs.foldl (fun n c => n * 10 + digitOf c) n ≤ 2 ^ 64 - 1) :
    parseUintLoop cs n = (cs.foldl (fun n c => n * 10 + digitOf c) n, none) := by
  induction cs generalizing n with
  | nil => rfl
  | cons c rest ih =>
    simp only [List.all_cons, Bool.and_eq_true] at h
    simp only [List.foldl_cons] at hmax ⊢
    have hle := le_foldl_digits rest (n * 10 + digitOf c)
    have h1 : n * 10 + digitOf c ≤ 2 ^ 64 - 1 := Nat.le_trans hle hmax
    have h2 : ¬ n ≥ (2 ^ 64 - 1) / 10 + 1 := by
      norm_num at h1 ⊢
      omega
    have h3 : (n * 10 + digitOf c) % 2 ^ 64 = n * 10 + digitOf c := by
      apply Nat.mod_eq_of_lt
      norm_num at h1 ⊢
      omega
    unfold parseUintLoop
    simp only [h.1, Bool.not_true, Bool.false_eq_true, if_false, h2, h3]
    have h4 : ¬ (n * 10 + digitOf c < n * 10 ∨ n * 10 + digitOf c > 2 ^ 64 - 1) := by
      norm_num at h1 ⊢
      omega
    simp only [h4, if_false]
    exact ih _ h.2 hmax

theorem specDigitsValue_some {cs : List Char} {n : Nat} (h : specDigitsValue cs = some n) :
    cs ≠ [] ∧ cs.all Char.isDigit = true ∧ cs.foldl (fun n c => n * 10 + digitOf c) 0 = n := by
  unfold specDigitsValue at h
  split at h
  · rename_i hc
    exact ⟨hc.1, hc.2, by simpa using h⟩
  · cases h

theorem ParseUint_digits {cs : List Char} {n : Nat} (h : specDigitsValue cs = some n)
    (hmax : n ≤ 2 ^ 64 - 1) : ParseUint cs = (n, none) := by
  obtain ⟨hne, hd, hv⟩ := specDigitsValue_some h
  unfold ParseUint
  rw [if_neg hne, parseUintLoop_digits cs 0 hd (by rw [hv]; exact hmax), hv]

/-- The slow path gives the value of an in-range numeral. -/
theorem ParseInt_value (c : Char) (cs : List Char) (v : Int)
    (h : (if c = '-' then (specDigitsValue cs).map (fun n : Nat => -(n : Int))
      else if c = '+' then (specDigitsValue cs).map (fun n : Nat => (n : Int))
      else (specDigitsValue (c :: cs)).map (fun n : Nat => (n : Int))) = some v)
    (hlo : -(2 ^ 63) ≤ v) (hhi : v < 2 ^ 63) : ParseInt (c :: cs) = (v, none) := by
  by_cases hm : c = '-'
  · subst hm
    simp only [if_true, Option.map_eq_some'] at h
    obtain ⟨n, hn, rfl⟩ := h
    have hmax : n ≤ 2 ^ 64 - 1 := by norm_num at hlo ⊢; omega
    have hn63 : n ≤ 9223372036854775808 := by norm_num at hlo ⊢; omega
    simp [ParseInt, ParseUint_digits hn hmax, hn63]
  · by_cases hp : c = '+'
    · subst hp
      simp only [if_neg hm, if_true, Option.map_eq_some'] at h
      obtain ⟨n, hn, rfl⟩ := h
      have hmax : n ≤ 2 ^ 64 - 1 := by norm_num at hhi ⊢; omega
      have hn63 : n < 9223372036854775808 := by norm_num at hhi ⊢; omega
      simp [ParseInt, ParseUint_digits hn hmax, hn63]
    · simp only [if_neg hm, if_neg hp, Option.map_eq_some'] at h
      obtain ⟨n, hn, rfl⟩ := h
      have hmax : n ≤ 2 ^ 64 - 1 := by norm_num at hhi ⊢; omega
      have hn63 : n < 9223372036854775808 := by norm_num at hhi ⊢; omega
      simp [ParseInt, hm, hp, ParseUint_digits hn hmax, hn63]

/-- The fast path gives the value of a numeral. -/
theorem atoiFast_value (c : Char) (cs : List Char) (v : Int)
    (h : (if c = '-' then (specDigitsValue cs).map (fun n : Nat => -(n : Int))
      else if c = '+' then (specDigitsValue cs).map (fun n : Nat => (n : Int))
      else (specDigitsValue (c :: cs)).map (fun n : Nat => (n : Int))) = some v) :
    (let s1 := if c == '-' ∨ c == '+' then cs else c :: cs
      if (c == '-' ∨ c == '+') ∧ s1.length < 1 then ((0 : Int), some NumError.ErrSyntax)
      else
        match atoiFastLoop s1 0 with
        | none => (0, some NumError.ErrSyntax)
        | some n => if c == '-' then (-(n : Int), none) else ((n : Int), none)) = (v, none) := by
  by_cases hm : c = '-'
  · subst hm
    simp only [if_true, Option.map_eq_some'] at h
    obtain ⟨n, hn, rfl⟩ := h
    obtain ⟨hne, hd, hv⟩ := specDigitsValue_some hn
    have hlen : ¬ cs.length < 1 := by
      cases cs with
      | nil => exact absurd rfl hne
      | cons _ _ => simp
    simp [atoiFastLoop_digits cs 0 hd, hv, hlen]
  · by_cases hp : c = '+'
    · subst hp
      simp only [if_neg hm, if_true, Option.map_eq_some'] at h
      obtain ⟨n, hn, rfl⟩ := h
      obtain ⟨hne, hd, hv⟩ := specDigitsValue_some hn
      have hlen : ¬ cs.length < 1 := by
        cases cs with
        | nil => exact absurd rfl hne
        | cons _ _ => simp
      simp [atoiFastLoop_digits cs 0 hd, hv, hlen]
    · simp only [if_neg hm, if_neg hp, Option.map_eq_some'] at h
      obtain ⟨n, hn, rfl⟩ := h
      obtain ⟨_, hd, hv⟩ := specDigitsValue_some hn
      simp [hm, hp, atoiFastLoop_digits (c :: cs) 0 hd, hv]

theorem Atoi_value (key : String) (v : Int) (h : specKeyValue key = some v)
    (hlo : -(2 ^ 63) ≤ v) (hhi : v < 2 ^ 63) : Atoi key = (v, none) := by
  unfold specKeyValue at h
  unfold Atoi
  cases hk : key.toList with
  | nil => rw [hk] at h; cases h
  | cons c cs =>
    rw [hk] at h
    simp only at h
    by_cases hsz : 0 < key.utf8ByteSize ∧ key.utf8ByteSize < 19
    · simp only [hsz, and_self, if_true]
      exact atoiFast_value c cs v h
    · simp only [hsz, if_false]
      exact ParseInt_value c cs v h hlo hhi

/-! ## Encoding and decoding a `State` -/

theorem mem_omitempty (k key : String) (v : Value) (o : Option Value) :
    (k, v) ∈ omitempty key o ↔ k = key ∧ o = some v := by
  cases o with
  | none => simp [omitempty]
  | some w => simp [omitempty, eq_comm]

theorem mem_members (s : State) (k : String) (v : Value) :
    (k, v) ∈ s.members ↔
      (k = "on" ∧ s.On.map Value.bool = some v) ∨
      (k = "hue" ∧ s.Hue.map (fun n : Nat => Value.number (n : Int)) = some v) ∨
      (k = "effect" ∧ (if s.Effect.length = 0 then none else some (Value.string s.Effect)) = some v) ∨
      (k = "bri" ∧ s.Bri.map (fun n : Nat => Value.number (n : Int)) = some v) ∨
      (k = "sat" ∧ s.Sat.map (fun n : Nat => Value.number (n : Int)) = some v) ∨
      (k = "ct" ∧ s.CT.map (fun n : Nat => Value.number (n : Int)) = some v) ∨
      (k = "xy" ∧ (if s.XY.length = 0 then none else some (Value.floats s.XY)) = some v) ∨
      (k = "alert" ∧ (if s.Alert.length = 0 then none else some (Value.string s.Alert)) = some v) ∨
      (k = "reachable" ∧ s.Reachable.map Value.bool = some v) ∨
      (k = "colormode" ∧
        (if s.ColorMode.length = 0 then none else some (Value.string s.ColorMode)) = some v) ∨
      (k = "colorloopspeed" ∧
        s.ColorLoopSpeed.map (fun n : Nat => Value.number (n : Int)) = some v) ∨
      (k = "transitiontime" ∧
        s.TransitionTime.map (fun n : Nat => Value.number (n : Int)) = some v) := by
  simp only [State.members, List.mem_append, mem_omitempty, or_assoc]

theorem foldlM_omitempty (key : String) (o : Option Value) (st : State) :
    (omitempty key o).foldlM decodeMember st
      = match o with
        | none => Except.ok st
        | some v => decodeMember st (key, v) := by
  cases o with
  | none => rfl
  | some v => simp [omitempty]

theorem decodeUint_number (w n : Nat) (h : n < 2 ^ w) :
    decodeUint w (Value.number n) = Except.ok (some n) := by
  have h2 : (n : Int) < 2 ^ w := by exact_mod_cast h
  simp [decodeUint, h2]

/-- Decoding what a `*bool` field with `omitempty` emitted restores the field. -/
theorem decode_emitted_bool (key : String) (o : Option Bool) (st : State)
    (upd : Option Bool → State)
    (hkey : ∀ v, decodeMember st (key, v) = (decodeBool v).map upd) (hnone : upd none = st) :
    (omitempty key (o.map Value.bool)).foldlM decodeMember st = Except.ok (upd o) := by
  rw [foldlM_omitempty]
  cases o with
  | none => simp [hnone]
  | some b => simp only [Option.map_some', hkey]; rfl

/-- Decoding what a `*uint8` or `*uint16` field with `omitempty` emitted restores the field. -/
theorem decode_emitted_uint (key : String) (w : Nat) (o : Option Nat) (st : State)
    (upd : Option Nat → State)
    (hkey : ∀ v, decodeMember st (key, v) = (decodeUint w v).map upd) (hnone : upd none = st)
    (hw : ∀ n ∈ o, n < 2 ^ w) :
    (omitempty key (o.map (fun n : Nat => Value.number (n : Int)))).foldlM decodeMember st
      = Except.ok (upd o) := by
  rw [foldlM_omitempty]
  cases o with
  | none => simp [hnone]
  | some n =>
    simp only [Option.map_some', hkey]
    rw [decodeUint_number w n (hw n rfl)]
    rfl

/-- Decoding what a `string` field with `omitempty` emitted restores the field. -/
theorem decode_emitted_string (key : String) (x : String) (st : State)
    (upd : String → State)
    (hkey : ∀ v, decodeMember st (key, Value.string v) = Except.ok (upd v))
    (hnone : upd "" = st) :
    (omitempty key (if x.length = 0 then none else some (Value.string x))).foldlM decodeMember st
      = Except.ok (upd x) := by
  rw [foldlM_omitempty]
  by_cases hx : x.length = 0
  · have : x = "" := by
      cases x with
      | mk data => simp at hx; simp [hx]
    subst this
    simp [hnone]
  · simp only [hx, if_false, hkey]

/-- Decoding what the `[]float32` field with `omitempty` emitted restores the field. -/
theorem decode_emitted_floats (key : String) (xs : List Float32) (st : State)
    (upd : List Float32 → State)
    (hkey : ∀ v, decodeMember st (key, Value.floats v) = Except.ok (upd v))
    (hnone : upd [] = st) :
    (omitempty key (if xs.length = 0 then none else some (Value.floats xs))).foldlM
      decodeMember st = Except.ok (upd xs) := by
  rw [foldlM_omitempty]
  by_cases hx : xs.length = 0
  · have : xs = [] := List.length_eq_zero.1 hx
    subst this
    simp [hnone]
  · simp only [hx, if_false, hkey]

theorem Unmarshal_members (s : State) (hwf : s.WF) : Unmarshal s.members = Except.ok s := by
  obtain ⟨hHue, hBri, hSat, hCT, hCLS, hTT⟩ := hwf
  have h1 := decode_emitted_bool "on" s.On {}
    (fun v => ⟨v, none, "", none, none, none, [], "", none, "", none, none⟩)
    (by intro v; simp [decodeMember]) rfl
  have h2 := decode_emitted_uint "hue" 16 s.Hue
    ⟨s.On, none, "", none, none, none, [], "", none, "", none, none⟩
    (fun v => ⟨s.On, v, "", none, none, none, [], "", none, "", none, none⟩)
    (by intro v; simp [decodeMember]) rfl hHue
  have h3 := decode_emitted_string "effect" s.Effect
    ⟨s.On, s.Hue, "", none, none, none, [], "", none, "", none, none⟩
    (fun v => ⟨s.On, s.Hue, v, none, none, none, [], "", none, "", none, none⟩)
    (by intro v; simp [decodeMember, decodeString, Except.map]) rfl
  have h4 := decode_emitted_uint "bri" 8 s.Bri
    ⟨s.On, s.Hue, s.Effect, none, none, none, [], "", none, "", none, none⟩
    (fun v => ⟨s.On, s.Hue, s.Effect, v, none, none, [], "", none, "", none, none⟩)
    (by intro v; simp [decodeMember]) rfl hBri
  have h5 := decode_emitted_uint "sat" 8 s.Sat
    ⟨s.On, s.Hue, s.Effect, s.Bri, none, none, [], "", none, "", none, none⟩
    (fun v => ⟨s.On, s.Hue, s.Effect, s.Bri, v, none, [], "", none, "", none, none⟩)
    (by intro v; simp [decodeMember]) rfl hSat
  have h6 := decode_emitted_uint "ct" 16 s.CT
    ⟨s.On, s.Hue, s.Effect, s.Bri, s.Sat, none, [], "", none, "", none, none⟩
    (fun v => ⟨s.On, s.Hue, s.Effect, s.Bri, s.Sat, v, [], "", none, "", none, none⟩)
    (by intro v; simp [decodeMember]) rfl hCT
  have h7 := decode_emitted_floats "xy" s.XY
    ⟨s.On, s.Hue, s.Effect, s.Bri, s.Sat, s.CT, [], "", none, "", none, none⟩
    (fun v => ⟨s.On, s.Hue, s.Effect, s.Bri, s.Sat, s.CT, v, "", none, "", none, none⟩)
    (by intro v; simp [decodeMember, decodeFloats, Except.map]) rfl
  have h8 := decode_emitted_string "alert" s.Alert
    ⟨s.On, s.Hue, s.Effect, s.Bri, s.Sat, s.CT, s.XY, "", none, "", none, none⟩
    (fun v => ⟨s.On, s.Hue, s.Effect, s.Bri, s.Sat, s.CT, s.XY, v, none, "", none, none⟩)
    (by intro v; simp [decodeMember, decodeString, Except.map]) rfl
  have h9 := decode_emitted_bool "reachable" s.Reachable
    ⟨s.On, s.Hue, s.Effect, s.Bri, s.Sat, s.CT, s.XY, s.Alert, none, "", none, none⟩
    (fun v => ⟨s.On, s.Hue, s.Effect, s.Bri, s.Sat, s.CT, s.XY, s.Alert, v, "", none, none⟩)
    (by intro v; simp [decodeMember]) rfl
  have h10 := decode_emitted_string "colormode" s.ColorMode
    ⟨s.On, s.Hue, s.Effect, s.Bri, s.Sat, s.CT, s.XY, s.Alert, s.Reachable, "", none, none⟩
    (fun v => ⟨s.On, s.Hue, s.Effect, s.Bri, s.Sat, s.CT, s.XY, s.Alert, s.Reachable, v,
      none, none⟩)
    (by intro v; simp [decodeMember, decodeString, Except.map]) rfl
  have h11 := decode_emitted_uint "colorloopspeed" 8 s.ColorLoopSpeed
    ⟨s.On, s.Hue, s.Effect, s.Bri, s.Sat, s.CT, s.XY, s.Alert, s.Reachable, s.ColorMode,
      none, none⟩
    (fun v => ⟨s.On, s.Hue, s.Effect, s.Bri, s.Sat, s.CT, s.XY, s.Alert, s.Reachable,
      s.ColorMode, v, none⟩)
    (by intro v; simp [decodeMember]) rfl hCLS
  have h12 := decode_emitted_uint "transitiontime" 16 s.TransitionTime
    ⟨s.On, s.Hue, s.Effect, s.Bri, s.Sat, s.CT, s.XY, s.Alert, s.Reachable, s.ColorMode,
      s.ColorLoopSpeed, none⟩
    (fun v => ⟨s.On, s.Hue, s.Effect, s.Bri, s.Sat, s.CT, s.XY, s.Alert, s.Reachable,
      s.ColorMode, s.ColorLoopSpeed, v⟩)
    (by intro v; simp [decodeMember]) rfl hTT
  beta_reduce at h1 h2 h3 h4 h5 h6 h7 h8 h9 h10 h11 h12
  unfold Unmarshal State.members
  simp only [List.foldlM_append, bind, Except.bind, h1, h2, h3, h4, h5, h6, h7, h8, h9, h10, h11, h12]

/-! ## Insertion sort: a sorted permutation -/

theorem insertLeft_perm {α : Type} (less : α → α → Bool) (x : α) (l : List α) :
    (insertLeft less x l).Perm (x :: l) := by
  induction l with
  | nil => exact List.Perm.refl _
  | cons y rest ih =>
    unfold insertLeft
    split
    · exact ((ih.cons y).trans (List.Perm.swap x y rest))
    · exact List.Perm.refl _

theorem foldl_insertLeft_perm {α : Type} (less : α → α → Bool) (data acc : List α) :
    (data.foldl (fun sortedRev x => insertLeft less x sortedRev) acc).Perm (data ++ acc) := by
  induction data generalizing acc with
  | nil => exact List.Perm.refl _
  | cons x xs ih =>
    refine (ih (insertLeft less x acc)).trans ?_
    refine (List.Perm.append_left xs (insertLeft_perm less x acc)).trans ?_
    exact List.perm_middle

theorem sortSlice_perm {α : Type} (less : α → α → Bool) (data : List α) :
    (sortSlice less data).Perm data := by
  unfold sortSlice insertionSort
  refine (List.reverse_perm _).trans ?_
  simpa using foldl_insertLeft_perm less data []

/-- Inserting keeps a reversed prefix in descending order of the key. -/
theorem insertLeft_sorted {α : Type} (key : α → Int) (x : α) (l : List α)
    (h : l.Pairwise (fun a b => key b ≤ key a)) :
    (insertLeft (fun a b => decide (key a < key b)) x l).Pairwise
      (fun a b => key b ≤ key a) := by
  induction l with
  | nil => simp [insertLeft]
  | cons y rest ih =>
    rw [List.pairwise_cons] at h
    unfold insertLeft
    split
    · rename_i hlt
      have hxy : key x < key y := by simpa using hlt
      rw [List.pairwise_cons]
      refine ⟨?_, ih h.2⟩
      intro b hb
      have hb2 : b ∈ x :: rest := (insertLeft_perm _ x rest).subset hb
      rcases List.mem_cons.1 hb2 with hbx | hbr
      · subst hbx; omega
      · exact h.1 b hbr
    · rename_i hlt
      have hxy : key y ≤ key x := by simpa using hlt
      rw [List.pairwise_cons]
      refine ⟨?_, List.pairwise_cons.2 h⟩
      intro b hb
      rcases List.mem_cons.1 hb with hby | hbr
      · subst hby; exact hxy
      · have := h.1 b hbr
        omega

theorem foldl_insertLeft_sorted {α : Type} (key : α → Int) (data acc : List α)
    (h : acc.Pairwise (fun a b => key b ≤ key a)) :
    (data.foldl (fun sortedRev x => insertLeft (fun a b => decide (key a < key b)) x sortedRev)
      acc).Pairwise (fun a b => key b ≤ key a) := by
  induction data generalizing acc with
  | nil => exact h
  | cons x xs ih => exact ih _ (insertLeft_sorted key x acc h)

theorem sortSlice_sorted {α : Type} (key : α → Int) (data : List α) :
    (sortSlice (fun a b => decide (key a < key b)) data).Pairwise
      (fun a b => key a ≤ key b) := by
  unfold sortSlice insertionSort
  rw [List.pairwise_reverse]
  exact foldl_insertLeft_sorted key data [] List.Pairwise.nil

/-! ## `GetAllLights` -/

theorem foldl_appendLight (lightsMap : List (String × Light)) (acc : List Light) :
    lightsMap.foldl appendLight acc
      = acc ++ lightsMap.map (fun e => { e.2 with ID := (Atoi e.1).1 }) := by
  induction lightsMap generalizing acc with
  | nil => simp
  | cons e es ih => simp [List.foldl_cons, ih, appendLight]

theorem GetAllLights_perm (lightsMap : List (String × Light)) :
    (GetAllLights lightsMap).Perm
      (lightsMap.map (fun e => { e.2 with ID := (Atoi e.1).1 })) := by
  unfold GetAllLights
  simpa [foldl_appendLight] using
    sortSlice_perm (fun a b : Light => decide (a.ID < b.ID)) (lightsMap.foldl appendLight [])

theorem GetAllLights_pairwise (lightsMap : List (String × Light)) :
    (GetAllLights lightsMap).Pairwise (fun a b => a.ID ≤ b.ID) := by
  unfold GetAllLights
  exact sortSlice_sorted Light.ID _

/-- C1: the sequence returned by `GetAllLights` is ascending by ID: of two Lights of the
result, the one at the smaller position has the smaller or equal ID. -/
theorem GetAllLights_sorted (lightsMap : List (String × Light)) (i j : Nat) (a b : Light)
    (hij : i < j) (ha : (GetAllLights lightsMap)[i]? = some a)
    (hb : (GetAllLights lightsMap)[j]? = some b) : a.ID ≤ b.ID := by
  have hp := GetAllLights_pairwise lightsMap
  rw [List.pairwise_iff_getElem] at hp
  obtain ⟨hi, rfl⟩ := List.getElem?_eq_some.1 ha
  obtain ⟨hj, rfl⟩ := List.getElem?_eq_some.1 hb
  exact hp i j hi hj hij

/-- C1, the example of the claim: keys "1", "10", "2" come out as 1, 2, 10. -/
theorem GetAllLights_sorted_witness :
    (GetAllLights [("1", {}), ("10", {}), ("2", {})]).map Light.ID = [1, 2, 10] ∧
    ({ ID := 2 } : Light).ID ≤ ({ ID := 10 } : Light).ID :=
  ⟨by decide,
   GetAllLights_sorted [("1", {}), ("10", {}), ("2", {})] 1 2 { ID := 2 } { ID := 10 }
     (by decide) (by decide) (by decide)⟩

/-- C3 as stated fails: under the key "99999999999999999999" the returned Light has the
ID 9223372036854775807, which is not the integer value of the key. -/
theorem GetAllLights_key_value_counterexample :
    GetAllLights [("99999999999999999999", { Name := "hall" })]
      = [{ Name := "hall", ID := 9223372036854775807 }] ∧
    specKeyValue "99999999999999999999" = some 99999999999999999999 ∧
    ¬ (∀ light ∈ GetAllLights [("99999999999999999999", { Name := "hall" })],
        ∃ e ∈ [("99999999999999999999", ({ Name := "hall" } : Light))],
          specKeyValue e.1 = some light.ID) := by
  decide

/-- C3 (amended): `GetAllLights` returns one Light per entry of the map, which is the body
of the entry with its ID replaced by what `Atoi` gives for the key, and for a key that is
a decimal numeral (optional sign, digits) within the 64-bit `int` range that ID is the
integer value of the key. -/
theorem GetAllLights_entries (lightsMap : List (String × Light)) :
    (GetAllLights lightsMap).Perm
      (lightsMap.map (fun e => { e.2 with ID := (Atoi e.1).1 })) ∧
    ∀ e ∈ lightsMap, ∀ v : Int, specKeyValue e.1 = some v → -(2 ^ 63) ≤ v → v < 2 ^ 63 →
      (Atoi e.1).1 = v :=
  ⟨GetAllLights_perm lightsMap, fun e _ v hv hlo hhi => by rw [Atoi_value e.1 v hv hlo hhi]⟩

/-- C3 (amended) at the map with the single key "7" whose body carries the id 3. -/
theorem GetAllLights_entries_witness :
    (GetAllLights [("7", { Name := "desk", ID := 3 })]).Perm [{ Name := "desk", ID := 7 }] ∧
    specKeyValue "7" = some 7 ∧ (Atoi "7").1 = 7 :=
  ⟨(GetAllLights_entries [("7", { Name := "desk", ID := 3 })]).1,
   by decide,
   (GetAllLights_entries [("7", { Name := "desk", ID := 3 })]).2
     ("7", { Name := "desk", ID := 3 }) (List.mem_singleton.2 rfl) 7
     (by decide) (by decide) (by decide)⟩

/-- C9 as stated fails: the keys "1" and "01" both convert to 1, and the two orders of
iterating over the map give two different results. -/
theorem GetAllLights_order_counterexample :
    ¬ (∀ m1 m2 : List (String × Light), m1.Perm m2 → (m1.map Prod.fst).Nodup →
        GetAllLights m1 = GetAllLights m2) := by
  intro h
  have h2 := h [("1", { Name := "a" }), ("01", { Name := "b" })]
    [("01", { Name := "b" }), ("1", { Name := "a" })] (List.Perm.swap _ _ _) (by decide)
  revert h2
  decide

theorem GetAllLights_strictly_sorted (lightsMap : List (String × Light))
    (hids : (lightsMap.map (fun e => (Atoi e.1).1)).Nodup) :
    (GetAllLights lightsMap).Pairwise (fun a b => a.ID < b.ID) := by
  have hp : ((GetAllLights lightsMap).map Light.ID).Perm
      (lightsMap.map (fun e => (Atoi e.1).1)) := by
    simpa [Function.comp_def] using (GetAllLights_perm lightsMap).map Light.ID
  have hnd : ((GetAllLights lightsMap).map Light.ID).Nodup := hp.nodup_iff.2 hids
  have hne : (GetAllLights lightsMap).Pairwise (fun a b => a.ID ≠ b.ID) := by
    rw [List.Nodup, List.pairwise_map] at hnd
    exact hnd
  exact ((GetAllLights_pairwise lightsMap).and hne).imp (fun h => lt_of_le_of_ne h.1 h.2)

/-- C9 (amended): when the keys of the map convert to pairwise distinct identifiers,
`GetAllLights` returns the same sequence for any two orders of iterating over the map. -/
theorem GetAllLights_deterministic (m1 m2 : List (String × Light)) (hperm : m1.Perm m2)
    (hids : (m1.map (fun e => (Atoi e.1).1)).Nodup) :
    GetAllLights m1 = GetAllLights m2 := by
  have hids2 : (m2.map (fun e => (Atoi e.1).1)).Nodup := (hperm.map _).nodup_iff.1 hids
  have hp : (GetAllLights m1).Perm (GetAllLights m2) :=
    ((GetAllLights_perm m1).trans (hperm.map _)).trans (GetAllLights_perm m2).symm
  haveI : IsAntisymm Light (fun a b => a.ID < b.ID) :=
    ⟨fun a b h1 h2 => absurd h1 (not_lt.2 (le_of_lt h2))⟩
  exact List.eq_of_perm_of_sorted hp (GetAllLights_strictly_sorted m1 hids)
    (GetAllLights_strictly_sorted m2 hids2)

/-- C9 (amended) at a map with the keys "1", "10", "2", iterated in two orders. -/
theorem GetAllLights_deterministic_witness :
    GetAllLights [("1", { Name := "a" }), ("10", { Name := "b" }), ("2", { Name := "c" })]
      = GetAllLights [("10", { Name := "b" }), ("1", { Name := "a" }), ("2", { Name := "c" })] :=
  GetAllLights_deterministic _ _ (List.Perm.swap _ _ _) (by decide)

/-! ## The setters -/

/-- C4: for a brightness `b` in 1..254 and a colour temperature `c` in 154..500, `SetCT(b, c)`
on a State with no field set gives a State whose brightness is present and equals `b`,
whose CT is present and equals `c`, and whose other fields are all still absent. -/
theorem SetCT_fresh (b c : Int) (hb1 : 1 ≤ b) (hb2 : b ≤ 254) (hc1 : 154 ≤ c) (hc2 : c ≤ 500) :
    ({} : State).SetCT b c =
      { On := none, Hue := none, Effect := "", Bri := some b.toNat, Sat := none,
        CT := some c.toNat, XY := [], Alert := "", Reachable := none, ColorMode := "",
        ColorLoopSpeed := none, TransitionTime := none } ∧
    (b.toNat : Int) = b ∧ (c.toNat : Int) = c := by
  have h1 : b % 2 ^ 8 = b := Int.emod_eq_of_lt (by omega) (by norm_num; omega)
  have h2 : c % 2 ^ 16 = c := Int.emod_eq_of_lt (by omega) (by norm_num; omega)
  refine ⟨?_, by omega, by omega⟩
  simp only [State.SetCT, h1, h2]

/-- C4, the example of the claim: `SetCT(100, 300)` gives bri=100, ct=300 and nothing else. -/
theorem SetCT_fresh_witness :
    ({} : State).SetCT 100 300 = { Bri := some 100, CT := some 300 } :=
  (SetCT_fresh 100 300 (by decide) (by decide) (by decide) (by decide)).1

/-- C5 as stated fails: after `SetOn(true)`, `SetCT(300, 70000)` and `SetXY` the State
holds the brightness 44 and the colour temperature 4464, the low 8 and 16 bits, and not the
values 300 and 70000 that were set. -/
theorem setters_compose_counterexample :
    (((({} : State).SetOn true).SetCT 300 70000).SetXY ⟨0⟩ ⟨0⟩).Bri = some 44 ∧
    (((({} : State).SetOn true).SetCT 300 70000).SetXY ⟨0⟩ ⟨0⟩).CT = some 4464 ∧
    ¬ (∃ n : Nat, (((({} : State).SetOn true).SetCT 300 70000).SetXY ⟨0⟩ ⟨0⟩).Bri = some n ∧
        (n : Int) = 300) := by
  have h : (((({} : State).SetOn true).SetCT 300 70000).SetXY ⟨0⟩ ⟨0⟩).Bri = some 44 := rfl
  refine ⟨h, rfl, ?_⟩
  rintro ⟨n, hn, h300⟩
  rw [h] at hn
  cases hn
  revert h300
  decide

/-- C5 (amended): each setter changes only its own fields (putting the old value back into
`On`, into `Bri` and `CT`, or into `XY` gives back the State it was applied to), and the
six orders of applying `SetOn`, `SetCT` and `SetXY` all give the same State, which is as
before but for `On = o`, `XY = [x, y]`, `Bri = b mod 2^8` and `CT = c mod 2^16`; when `b`
is in 0..255 and `c` in 0..65535 these are `b` and `c`, so that the State holds every value
set. -/
theorem setters_frame (s : State) (o : Bool) (b c : Int) (x y : Float32) :
    { s.SetOn o with On := s.On } = s ∧
    { s.SetCT b c with Bri := s.Bri, CT := s.CT } = s ∧
    { s.SetXY x y with XY := s.XY } = s ∧
    ((s.SetOn o).SetCT b c).SetXY x y
      = { s with On := some o, Bri := some (b % 2 ^ 8).toNat, CT := some (c % 2 ^ 16).toNat,
                 XY := [x, y] } ∧
    ((s.SetOn o).SetXY x y).SetCT b c = ((s.SetOn o).SetCT b c).SetXY x y ∧
    ((s.SetCT b c).SetOn o).SetXY x y = ((s.SetOn o).SetCT b c).SetXY x y ∧
    ((s.SetCT b c).SetXY x y).SetOn o = ((s.SetOn o).SetCT b c).SetXY x y ∧
    ((s.SetXY x y).SetOn o).SetCT b c = ((s.SetOn o).SetCT b c).SetXY x y ∧
    ((s.SetXY x y).SetCT b c).SetOn o = ((s.SetOn o).SetCT b c).SetXY x y ∧
    (0 ≤ b → b < 2 ^ 8 → 0 ≤ c → c < 2 ^ 16 →
      ∃ bri ct : Nat, (bri : Int) = b ∧ (ct : Int) = c ∧
        ((s.SetOn o).SetCT b c).SetXY x y
          = { s with On := some o, Bri := some bri, CT := some ct, XY := [x, y] }) := by
  refine ⟨rfl, rfl, rfl, rfl, rfl, rfl, rfl, rfl, rfl, ?_⟩
  intro hb0 hb1 hc0 hc1
  refine ⟨b.toNat, c.toNat, Int.toNat_of_nonneg hb0, Int.toNat_of_nonneg hc0, ?_⟩
  have h1 : b % 2 ^ 8 = b := Int.emod_eq_of_lt hb0 hb1
  have h2 : c % 2 ^ 16 = c := Int.emod_eq_of_lt hc0 hc1
  simp only [State.SetOn, State.SetCT, State.SetXY, h1, h2]
  rfl

/-- C5 (amended) at `SetOn(true)`, `SetCT(100, 300)`, `SetXY(0.3, 0.4)` on a State that
already has an effect: in the order XY, CT, On and in the order On, CT, XY the State holds
the four values set and still has the effect. -/
theorem setters_frame_witness :
    ((({ Effect := "colorloop" } : State).SetXY ⟨1050253722⟩ ⟨1053609165⟩).SetCT 100 300).SetOn
        true
      = { On := some true, Effect := "colorloop", Bri := some 100, CT := some 300,
          XY := [⟨1050253722⟩, ⟨1053609165⟩] } := by
  obtain ⟨_, _, _, _, _, _, _, _, h9, h10⟩ :=
    setters_frame { Effect := "colorloop" } true 100 300 ⟨1050253722⟩ ⟨1053609165⟩
  obtain ⟨bri, ct, hb, hc, h⟩ := h10 (by decide) (by decide) (by decide) (by decide)
  have hb2 : bri = 100 := by exact_mod_cast hb
  have hc2 : ct = 300 := by exact_mod_cast hc
  rw [h9, h, hb2, hc2]

/-! ## The body of `SetLightState` -/

theorem postbody_of_finite (s : State) (h : ∀ f ∈ s.XY, f.isFinite = true) :
    SetLightState_postbody s = Except.ok s.members := by
  have : s.XY.all Float32.isFinite = true := List.all_eq_true.2 h
  simp [SetLightState_postbody, Marshal, this]

/-- C2 as stated fails: on a State with `On` set and a NaN among the XY coordinates the
encoder returns an error, so that no object, and no key `on`, is emitted. -/
theorem SetLightState_presence_counterexample :
    ({ On := some true, XY := [⟨2143289344⟩, ⟨0⟩] } : State).WF ∧
    ({ On := some true, XY := [⟨2143289344⟩, ⟨0⟩] } : State).On = some true ∧
    ¬ ∃ members,
      SetLightState_postbody { On := some true, XY := [⟨2143289344⟩, ⟨0⟩] }
        = Except.ok members := by
  refine ⟨by decide, rfl, ?_⟩
  rintro ⟨members, h⟩
  have herr : SetLightState_postbody { On := some true, XY := [⟨2143289344⟩, ⟨0⟩] }
      = Except.error JSONError.UnsupportedValue := rfl
  rw [herr] at h
  cases h

/-- C2 (amended): for every State whose XY coordinates are all finite and whose string
fields effect, alert and colormode hold valid UTF-8 (which every `String` does),
`SetLightState` encodes an object that has a key for each of on, hue, bri, sat, ct,
reachable, colorloopspeed, transitiontime exactly when that field is set, whatever its
value, and decoding the object gives back the same State. -/
theorem SetLightState_presence (s : State) (hwf : s.WF)
    (hxy : ∀ f ∈ s.XY, f.isFinite = true) :
    ∃ members, SetLightState_postbody s = Except.ok members ∧
      ((∃ v, ("on", v) ∈ members) ↔ s.On.isSome = true) ∧
      ((∃ v, ("hue", v) ∈ members) ↔ s.Hue.isSome = true) ∧
      ((∃ v, ("bri", v) ∈ members) ↔ s.Bri.isSome = true) ∧
      ((∃ v, ("sat", v) ∈ members) ↔ s.Sat.isSome = true) ∧
      ((∃ v, ("ct", v) ∈ members) ↔ s.CT.isSome = true) ∧
      ((∃ v, ("reachable", v) ∈ members) ↔ s.Reachable.isSome = true) ∧
      ((∃ v, ("colorloopspeed", v) ∈ members) ↔ s.ColorLoopSpeed.isSome = true) ∧
      ((∃ v, ("transitiontime", v) ∈ members) ↔ s.TransitionTime.isSome = true) ∧
      Unmarshal members = Except.ok s := by
  refine ⟨s.members, postbody_of_finite s hxy, ?_, ?_, ?_, ?_, ?_, ?_, ?_, ?_,
    Unmarshal_members s hwf⟩
  · cases h : s.On <;> simp [mem_members, h]
  · cases h : s.Hue <;> simp [mem_members, h]
  · cases h : s.Bri <;> simp [mem_members, h]
  · cases h : s.Sat <;> simp [mem_members, h]
  · cases h : s.CT <;> simp [mem_members, h]
  · cases h : s.Reachable <;> simp [mem_members, h]
  · cases h : s.ColorLoopSpeed <;> simp [mem_members, h]
  · cases h : s.TransitionTime <;> simp [mem_members, h]

/-- C2 (amended) at a State with `On` set to false, `Bri` and `CT` set to 0 and the XY
pair (0.3, 0.4): the three keys are there and the State comes back. -/
theorem SetLightState_presence_witness :
    ∃ members,
      SetLightState_postbody
          { On := some false, Bri := some 0, CT := some 0, XY := [⟨1050253722⟩, ⟨1053609165⟩] }
        = Except.ok members ∧
      (∃ v, ("on", v) ∈ members) ∧ (∃ v, ("bri", v) ∈ members) ∧ (∃ v, ("ct", v) ∈ members) ∧
      ¬ (∃ v, ("hue", v) ∈ members) ∧
      Unmarshal members = Except.ok
          { On := some false, Bri := some 0, CT := some 0, XY := [⟨1050253722⟩, ⟨1053609165⟩] } := by
  obtain ⟨members, h, hon, hhue, hbri, _, hct, _, _, _, hback⟩ :=
    SetLightState_presence
      { On := some false, Bri := some 0, CT := some 0, XY := [⟨1050253722⟩, ⟨1053609165⟩] }
      (by decide) (by decide)
  exact ⟨members, h, hon.2 rfl, hbri.2 rfl, hct.2 rfl, fun hv => absurd (hhue.1 hv) (by decide),
    hback⟩

/-- C6 as stated fails: after `SetXY(NaN, 0)` the State has no JSON encoding, the encoder
returns an error. -/
theorem SetXY_encoding_counterexample :
    (({} : State).SetXY ⟨2143289344⟩ ⟨0⟩).XY = [⟨2143289344⟩, ⟨0⟩] ∧
    ¬ ∃ members,
      SetLightState_postbody (({} : State).SetXY ⟨2143289344⟩ ⟨0⟩) = Except.ok members := by
  refine ⟨rfl, ?_⟩
  rintro ⟨members, h⟩
  have herr : SetLightState_postbody (({} : State).SetXY ⟨2143289344⟩ ⟨0⟩)
      = Except.error JSONError.UnsupportedValue := rfl
  rw [herr] at h
  cases h

/-- C6 (amended): for every x and y, after `SetXY(x, y)` the XY of the State is the
two-element sequence [x, y]; when x and y are finite, its JSON encoding has the key `xy`
with that two-element array; and the JSON encoding of a State on which XY was never set
has no key `xy`. -/
theorem SetXY_encoding (s : State) (x y : Float32) :
    (s.SetXY x y).XY = [x, y] ∧
    (x.isFinite = true → y.isFinite = true →
      ∃ members, SetLightState_postbody (s.SetXY x y) = Except.ok members ∧
        ∀ v, ("xy", v) ∈ members ↔ v = Value.floats [x, y]) ∧
    (∀ t : State, t.XY = [] →
      ∃ members, SetLightState_postbody t = Except.ok members ∧ ∀ v, ("xy", v) ∉ members) := by
  refine ⟨rfl, fun hx hy => ⟨(s.SetXY x y).members, postbody_of_finite _ ?_, ?_⟩, ?_⟩
  · intro f hf
    have : f = x ∨ f = y := by simpa [State.SetXY] using hf
    rcases this with h | h <;> simp [h, hx, hy]
  · intro v
    simp [mem_members, State.SetXY, eq_comm]
  · intro t ht
    refine ⟨t.members, postbody_of_finite _ (by simp [ht]), ?_⟩
    intro v
    simp [mem_members, ht]

/-- C6 (amended), the example of the specification: `SetXY(0.3, 0.4)` is encoded with the
two-element array under `xy`, and the State without XY has no such key. -/
theorem SetXY_encoding_witness :
    (∃ members,
      SetLightState_postbody (({} : State).SetXY ⟨1050253722⟩ ⟨1053609165⟩)
        = Except.ok members ∧
      ("xy", Value.floats [⟨1050253722⟩, ⟨1053609165⟩]) ∈ members) ∧
    (∃ members, SetLightState_postbody (({} : State).SetOn true) = Except.ok members ∧
      ∀ v, ("xy", v) ∉ members) := by
  obtain ⟨_, h2, h3⟩ := SetXY_encoding {} ⟨1050253722⟩ ⟨1053609165⟩
  obtain ⟨members, hm, hv⟩ := h2 (by decide) (by decide)
  exact ⟨⟨members, hm, (hv _).2 rfl⟩, h3 (({} : State).SetOn true) rfl⟩

/-- C8 as stated fails: after `SetCT(300, 70000)` the body carries bri 44 and ct 4464,
the low 8 and 16 bits of the arguments, and not 300 and 70000. -/
theorem SetCT_forwarded_counterexample :
    SetLightState_postbody (({} : State).SetCT 300 70000)
      = Except.ok [("bri", Value.number 44), ("ct", Value.number 4464)] ∧
    ¬ ∃ members, SetLightState_postbody (({} : State).SetCT 300 70000) = Except.ok members ∧
        ("bri", Value.number 300) ∈ members := by
  have h : SetLightState_postbody (({} : State).SetCT 300 70000)
      = Except.ok [("bri", Value.number 44), ("ct", Value.number 4464)] := rfl
  refine ⟨h, ?_⟩
  rintro ⟨members, hm, hmem⟩
  rw [h] at hm
  cases hm
  revert hmem
  decide

/-- C8 (amended): `SetCT` applies no range check and rejects nothing, but converts to the
types of the fields: for all integers `b` and `c`, the body that `SetLightState` then
encodes (for a State whose XY coordinates are finite) carries bri = `b mod 2^8` and
ct = `c mod 2^16`; so every `b` in 0..255 and `c` in 0..65535 is carried as it is. -/
theorem SetCT_forwarded (s : State) (b c : Int) (hxy : ∀ f ∈ s.XY, f.isFinite = true) :
    ∃ members, SetLightState_postbody (s.SetCT b c) = Except.ok members ∧
      (∀ v, ("bri", v) ∈ members ↔ v = Value.number (b % 2 ^ 8)) ∧
      (∀ v, ("ct", v) ∈ members ↔ v = Value.number (c % 2 ^ 16)) ∧
      (0 ≤ b → b < 2 ^ 8 → ("bri", Value.number b) ∈ members) ∧
      (0 ≤ c → c < 2 ^ 16 → ("ct", Value.number c) ∈ members) := by
  have hbri : ∀ v, ("bri", v) ∈ (s.SetCT b c).members ↔ v = Value.number (b % 2 ^ 8) := by
    intro v
    have hb2 : b % 256 ⊔ 0 = b % 256 := max_eq_left (Int.emod_nonneg _ (by norm_num))
    simp [mem_members, State.SetCT, hb2, eq_comm]
  have hct : ∀ v, ("ct", v) ∈ (s.SetCT b c).members ↔ v = Value.number (c % 2 ^ 16) := by
    intro v
    have hc2 : c % 65536 ⊔ 0 = c % 65536 := max_eq_left (Int.emod_nonneg _ (by norm_num))
    simp [mem_members, State.SetCT, hc2, eq_comm]
  refine ⟨(s.SetCT b c).members, postbody_of_finite _ hxy, hbri, hct, ?_, ?_⟩
  · intro h0 h1
    rw [hbri, Int.emod_eq_of_lt h0 h1]
  · intro h0 h1
    rw [hct, Int.emod_eq_of_lt h0 h1]

/-- C8 (amended) at `SetCT(255, 600)`, both outside the documented ranges 1..254 and
154..500: the body carries 255 and 600. -/
theorem SetCT_forwarded_witness :
    ∃ members, SetLightState_postbody (({} : State).SetCT 255 600) = Except.ok members ∧
      ("bri", Value.number 255) ∈ members ∧ ("ct", Value.number 600) ∈ members := by
  obtain ⟨members, hm, _, _, hb, hc⟩ :=
    SetCT_forwarded {} 255 600 (fun f hf => absurd hf (List.not_mem_nil f))
  exact ⟨members, hm, hb (by decide) (by decide), hc (by decide) (by decide)⟩

/-! ## The renderings -/

theorem State_String_eq_none_iff (fmtG : Float32 → String) (s : State) :
    State.String fmtG s = none ↔ s.XY.length = 1 := by
  rcases hxy : s.XY with _ | ⟨x, _ | ⟨y, rest⟩⟩ <;> simp [State.String, hxy]

theorem Light_String_eq_none_iff (fmtG : Float32 → String) (l : Light) :
    Light.String fmtG l = none ↔ l.State.XY.length = 1 := by
  rw [← State_String_eq_none_iff fmtG l.State]
  cases h : State.String fmtG l.State <;> simp [Light.String, h]

/-- C7 fails on the code: on a State whose XY holds a single coordinate, `State.String`
panics with an index out of range and returns no text; without the XY the same State is
rendered as the claim says (CT=300 gives the CT line, CT=0 gives none). -/
theorem State_String_single_coordinate (fmtG : Float32 → String) :
    State.String fmtG { CT := some 300, XY := [⟨1050253722⟩] } = none ∧
    State.String fmtG { CT := some 300 } = some "CT:              300\n" ∧
    State.String fmtG { CT := some 0 } = some "" :=
  ⟨rfl, rfl, rfl⟩

/-- C10: `State.String`, and with it `Light.String`, fails with an index out of range
exactly when XY has exactly one element; it returns a string for every State whose XY was
set by `SetXY`, and fails on a State whose XY holds one coordinate, such as the one
decoded from an object with a one-element `xy` array. -/
theorem String_index_out_of_range (fmtG : Float32 → String) (s : State) (l : Light)
    (x y : Float32) :
    (State.String fmtG s = none ↔ s.XY.length = 1) ∧
    (Light.String fmtG l = none ↔ l.State.XY.length = 1) ∧
    (State.String fmtG (s.SetXY x y)).isSome = true ∧
    State.String fmtG { s with XY := [x] } = none ∧
    (Unmarshal [("xy", Value.floats [x])]).map (State.String fmtG) = Except.ok none := by
  refine ⟨State_String_eq_none_iff fmtG s, Light_String_eq_none_iff fmtG l, ?_, ?_, rfl⟩
  · rw [Option.isSome_iff_ne_none, Ne, State_String_eq_none_iff]
    simp [State.SetXY]
  · rw [State_String_eq_none_iff]
    rfl

end lights
